import Mathlib

set_option maxHeartbeats 1000000

/-! Shallow embedding of the mcp-uploadthing server (src/src/mcp.ts together with
the stdio entry point and the v0.0.1 single-file tool in src/unnamed/part_000).

The filesystem (`fs.readFile`) and the UploadThing client (`utapi.uploadFiles`,
`utapi.uploadFilesFromUrl`) are external collaborators; they are passed to the
handlers as oracles.  An `Except.error` from an oracle models a rejected promise
(a thrown fault); serialized payloads (`JSON.stringify(...)`) are modelled as the
strings the oracle carries.  Template-literal indentation and decorative newlines
of the source messages are elided; the message skeleton (fixed prefixes, the
`identifier: detail` rendering and the `", "` join) is kept exactly. -/

/-- Input item of the upload-files tool: `{ filePath, fileName, fileType }`. -/
structure FileInput where
  filePath : String
  fileName : String
  fileType : String
  deriving DecidableEq, Repr

/-- In-memory file object (`new File([buffer], fileName, { type: fileType })`). -/
structure MFile where
  name : String
  type : String
  bytes : String
  deriving DecidableEq, Repr

/-- Per-item result from the upload service: `{ data | error }`, exactly one set,
payloads already serialized. -/
inductive UTResult where
  | ok (data : String)
  | err (error : String)
  deriving DecidableEq, Repr

def UTResult.isOk : UTResult → Bool
  | .ok _ => true
  | .err _ => false

def UTResult.isErr : UTResult → Bool
  | .ok _ => false
  | .err _ => true

def UTResult.dataStr : UTResult → String
  | .ok d => d
  | .err _ => ""

def UTResult.errStr : UTResult → String
  | .ok _ => ""
  | .err e => e

/-- Filesystem oracle: path to file bytes, or the read-error message. -/
abbrev FS := String → Except String String

/-- Upload-service oracle for `utapi.uploadFiles` on a batch: per-item results,
or a thrown transport-level fault. -/
abbrev SvcFiles := List MFile → Except String (List UTResult)

/-- Upload-service oracle for `utapi.uploadFilesFromUrl`. -/
abbrev SvcUrls := List String → Except String (List UTResult)

def exOk {ε α : Type} : Except ε α → Bool
  | .ok _ => true
  | .error _ => false

def exErrStr {α : Type} : Except String α → String
  | .ok _ => ""
  | .error e => e

/-- The response envelope `{ content: [{type: "text", text}], isError? }`,
with an absent `isError` modelled as `false`. -/
structure ToolResponse where
  text : String
  isError : Bool
  deriving DecidableEq, Repr

/-- JS `array.join(sep)`. -/
def joinSep (sep : String) : List String → String
  | [] => ""
  | [x] => x
  | x :: y :: xs => x ++ sep ++ joinSep sep (y :: xs)

/-- Render a list of `(identifier, detail)` pairs the way every message in the
source does. -/
def renderPairs (l : List (String × String)) : List String :=
  l.map fun p => p.1 ++ ": " ++ p.2

def readFailMsg (failed : List (String × String)) : String :=
  "Failed to read files given the following paths: " ++ joinSep ", " (renderPairs failed)

def uploadFailMsg (succ failed : List (String × String)) : String :=
  "Successfully uploaded files: " ++ joinSep ", " (renderPairs succ) ++
    "\n\nFailed to upload files: " ++ joinSep ", " (renderPairs failed)

def uploadOkMsg (succ : List (String × String)) : String :=
  "Successfully uploaded files: " ++ joinSep ", " (renderPairs succ)

def urlFailMsg (succ failed : List (String × String)) : String :=
  "Successfully uploaded files by URL: " ++ joinSep ", " (renderPairs succ) ++
    "\n\nFailed to upload files by URL: " ++ joinSep ", " (renderPairs failed)

def urlOkMsg (succ : List (String × String)) : String :=
  "Successfully uploaded files by URL: " ++ joinSep ", " (renderPairs succ)

/-- File Materializer: read the bytes at `filePath` and build the `File` object. -/
def materialize (fs : FS) (f : FileInput) : Except String MFile :=
  match fs f.filePath with
  | .error e => .error e
  | .ok buffer => .ok ⟨f.fileName, f.fileType, buffer⟩

/-- The `MFile` a successful read of `f` produces (bytes default irrelevant when
the read fails). -/
def mfileOf (fs : FS) (f : FileInput) : MFile :=
  ⟨f.fileName, f.fileType, match fs f.filePath with | .ok b => b | .error _ => ""⟩

/-- The settled read promises (`Promise.allSettled`), each tagged with its input. -/
def settledOf (fs : FS) (inputs : List FileInput) : List (FileInput × Except String MFile) :=
  inputs.map fun f => (f, materialize fs f)

/-- The `failedFiles` list: the settled reads whose status is rejected. -/
def failedFilesOf (fs : FS) (inputs : List FileInput) :
    List (FileInput × Except String MFile) :=
  (settledOf fs inputs).filter fun p => !(exOk p.2)

/-- The `(path, reason)` pairs the read-failure message is built from. -/
def readFailD (fs : FS) (inputs : List FileInput) : List (String × String) :=
  (failedFilesOf fs inputs).map fun p => (p.1.filePath, exErrStr p.2)

/-- The `succesfulFiles` list (sic): the fulfilled reads, keeping their input tag. -/
def succesfulFilesOf (fs : FS) (inputs : List FileInput) : List (FileInput × MFile) :=
  (settledOf fs inputs).filterMap fun p =>
    match p.2 with
    | .ok m => some (p.1, m)
    | .error _ => none

/-- The `failedUploads` list: per-item service results with an error, tagged with the item. -/
def failedUploadsOf {β : Type} (results : List UTResult) (xs : List β) :
    List (UTResult × β) :=
  (results.zip xs).filter fun p => p.1.isErr

/-- The `successfulUploads` list: per-item service results with data, tagged with the item. -/
def successfulUploadsOf {β : Type} (results : List UTResult) (xs : List β) :
    List (UTResult × β) :=
  (results.zip xs).filter fun p => p.1.isOk

/-- Rendered `(name, data)` pairs of the successful uploads of upload-files. -/
def succDOf (results : List UTResult) (succ : List (FileInput × MFile)) :
    List (String × String) :=
  (successfulUploadsOf results succ).map fun p => (p.2.2.name, p.1.dataStr)

/-- Rendered `(name, error)` pairs of the failed uploads of upload-files. -/
def failDOf (results : List UTResult) (succ : List (FileInput × MFile)) :
    List (String × String) :=
  (failedUploadsOf results succ).map fun p => (p.2.2.name, p.1.errStr)

/-- One upload-files invocation, instrumented: the response, the success and
failure lists the response text was built from (tagged with the originating
input), and every argument passed to the upload service. -/
structure FilesRun where
  resp : ToolResponse
  successes : List FileInput
  failures : List FileInput
  failD : List (String × String)
  svcCalls : List (List MFile)
  deriving DecidableEq, Repr

/-- The upload-files handler (src/src/mcp.ts, lines 46-157). -/
def uploadFilesHandler (fs : FS) (svc : SvcFiles) (inputs : List FileInput) : FilesRun :=
  if (failedFilesOf fs inputs).length > 0 then
    { resp := ⟨"Files upload failed: " ++ readFailMsg (readFailD fs inputs), true⟩
      successes := []
      failures := (failedFilesOf fs inputs).map Prod.fst
      failD := readFailD fs inputs
      svcCalls := [] }
  else if (succesfulFilesOf fs inputs).length = 0 then
    { resp := ⟨"Files upload failed: No files could be read to be uploaded", true⟩
      successes := []
      failures := []
      failD := []
      svcCalls := [] }
  else
    match svc ((succesfulFilesOf fs inputs).map Prod.snd) with
    | .error e =>
      { resp := ⟨"Files upload failed: " ++ e, true⟩
        successes := []
        failures := []
        failD := []
        svcCalls := [(succesfulFilesOf fs inputs).map Prod.snd] }
    | .ok results =>
      if (failedUploadsOf results (succesfulFilesOf fs inputs)).length > 0 then
        { resp := ⟨"Files upload failed: " ++
            uploadFailMsg (succDOf results (succesfulFilesOf fs inputs))
              (failDOf results (succesfulFilesOf fs inputs)), true⟩
          successes :=
            (successfulUploadsOf results (succesfulFilesOf fs inputs)).map fun p => p.2.1
          failures :=
            (failedUploadsOf results (succesfulFilesOf fs inputs)).map fun p => p.2.1
          failD := failDOf results (succesfulFilesOf fs inputs)
          svcCalls := [(succesfulFilesOf fs inputs).map Prod.snd] }
      else
        { resp := ⟨uploadOkMsg (succDOf results (succesfulFilesOf fs inputs)), false⟩
          successes :=
            (successfulUploadsOf results (succesfulFilesOf fs inputs)).map fun p => p.2.1
          failures := []
          failD := []
          svcCalls := [(succesfulFilesOf fs inputs).map Prod.snd] }

/-- One upload-files-from-urls invocation, instrumented like `FilesRun`. -/
structure UrlsRun where
  resp : ToolResponse
  successes : List String
  failures : List String
  failD : List (String × String)
  svcCalls : List (List String)
  deriving DecidableEq, Repr

/-- Rendered `(url, data)` pairs of the successful uploads of upload-files-from-urls. -/
def urlSuccD (results : List UTResult) (urls : List String) : List (String × String) :=
  (successfulUploadsOf results urls).map fun p => (p.2, p.1.dataStr)

/-- Rendered `(url, error)` pairs of the failed uploads of upload-files-from-urls. -/
def urlFailD (results : List UTResult) (urls : List String) : List (String × String) :=
  (failedUploadsOf results urls).map fun p => (p.2, p.1.errStr)

/-- The upload-files-from-urls handler (src/src/mcp.ts, lines 168-233). -/
def uploadFilesFromUrlsHandler (svc : SvcUrls) (urls : List String) : UrlsRun :=
  match svc urls with
  | .error e =>
    { resp := ⟨"Files by URL upload failed: " ++ e, true⟩
      successes := []
      failures := []
      failD := []
      svcCalls := [urls] }
  | .ok results =>
    if (failedUploadsOf results urls).length > 0 then
      { resp := ⟨"Files by URL upload failed: " ++
          urlFailMsg (urlSuccD results urls) (urlFailD results urls), true⟩
        successes := (successfulUploadsOf results urls).map Prod.snd
        failures := (failedUploadsOf results urls).map Prod.snd
        failD := urlFailD results urls
        svcCalls := [urls] }
    else
      { resp := ⟨urlOkMsg (urlSuccD results urls), false⟩
        successes := (successfulUploadsOf results urls).map Prod.snd
        failures := []
        failD := []
        svcCalls := [urls] }

/-- The single-file upload-file handler (src/unnamed/part_000, v0.0.1 mcp.ts). -/
def uploadFileHandler (fs : FS) (svc1 : MFile → Except String UTResult)
    (file fileName fileType : String) : ToolResponse :=
  match fs file with
  | .error e => ⟨"File upload failed: " ++ e, true⟩
  | .ok buffer =>
    match svc1 ⟨fileName, fileType, buffer⟩ with
    | .error e => ⟨"File upload failed: " ++ e, true⟩
    | .ok (.err er) => ⟨"File upload failed: Upload failed: " ++ er, true⟩
    | .ok (.ok d) => ⟨"File uploaded successfully: " ++ d, false⟩

/-- The MCP server record: its metadata and the registered tool handlers. -/
structure MCPServer where
  name : String
  version : String
  filesTool : FS → SvcFiles → List FileInput → FilesRun
  urlsTool : SvcUrls → List String → UrlsRun

/-- Function `createMCPUploadThing` (src/src/mcp.ts, lines 9-18): throws when the token
is falsy, otherwise builds the server and registers the tools. -/
def createMCPUploadThing (token : String) : Except String MCPServer :=
  if token = "" then .error "UploadThing Token is required"
  else .ok ⟨"mcp-uploadthing", "0.0.2", uploadFilesHandler, uploadFilesFromUrlsHandler⟩

/-- Function `main` of the stdio entry point (src/unnamed/part_000, lines 4-13): the env
token is absent (`none`) or a string; `!token` rejects both absence and `""`. -/
def mainInit (env : Option String) : Except String MCPServer :=
  match env with
  | none => .error "UPLOADTHING_TOKEN is required"
  | some t =>
    if t = "" then .error "UPLOADTHING_TOKEN is required"
    else createMCPUploadThing t

/-- Modelled from the spec: the tool framework validates the call input against
the declared schema (`z.array(z.string().url())`, src/src/mcp.ts lines 163-167)
before the handler runs; input holding a syntactically invalid URL is rejected
with a validation error and the handler is never invoked.  The URL-validity
test itself is external (zod), so it is a parameter. -/
def toolCallUrls (validUrl : String → Bool) (svc : SvcUrls) (urls : List String) :
    Except String UrlsRun :=
  if urls.all validUrl then .ok (uploadFilesFromUrlsHandler svc urls)
  else .error "ValidationError"

/-- String `s` occurs inside `t`. -/
def strContains (t s : String) : Prop := s.data <:+: t.data

/-! ### Lemmas about the embedded stages -/

theorem exOk_materialize (fs : FS) (f : FileInput) :
    exOk (materialize fs f) = exOk (fs f.filePath) := by
  unfold materialize
  cases fs f.filePath <;> rfl

theorem materialize_eq_ok (fs : FS) (f : FileInput) (h : exOk (fs f.filePath) = true) :
    materialize fs f = Except.ok (mfileOf fs f) := by
  unfold materialize mfileOf
  cases hfs : fs f.filePath with
  | error e => rw [hfs] at h; simp [exOk] at h
  | ok b => rfl

theorem failedFilesOf_eq_nil_iff (fs : FS) (inputs : List FileInput) :
    failedFilesOf fs inputs = [] ↔ ∀ f ∈ inputs, exOk (fs f.filePath) = true := by
  unfold failedFilesOf settledOf
  rw [List.filter_eq_nil_iff]
  constructor
  · intro h f hf
    have := h (f, materialize fs f) (List.mem_map.mpr ⟨f, hf, rfl⟩)
    simpa [exOk_materialize] using this
  · intro h p hp
    rcases List.mem_map.mp hp with ⟨f, hf, rfl⟩
    simp [exOk_materialize, h f hf]

theorem succesfulFilesOf_all_ok (fs : FS) (inputs : List FileInput)
    (h : ∀ f ∈ inputs, exOk (fs f.filePath) = true) :
    succesfulFilesOf fs inputs = inputs.map fun f => (f, mfileOf fs f) := by
  unfold succesfulFilesOf settledOf
  induction inputs with
  | nil => rfl
  | cons a l ih =>
    have ha := h a (List.mem_cons_self a l)
    have hl : ∀ f ∈ l, exOk (fs f.filePath) = true := fun f hf =>
      h f (List.mem_cons_of_mem a hf)
    simp only [List.map_cons, List.filterMap_cons, materialize_eq_ok fs a ha]
    rw [ih hl]

theorem UTResult.isErr_eq_not_isOk (r : UTResult) : r.isErr = !r.isOk := by
  cases r <;> rfl

theorem uploads_partition_perm {β : Type} (results : List UTResult) (xs : List β) :
    (successfulUploadsOf results xs ++ failedUploadsOf results xs).Perm
      (results.zip xs) := by
  unfold successfulUploadsOf failedUploadsOf
  have h : (fun p : UTResult × β => p.1.isErr) =
      fun p : UTResult × β => !(p.1.isOk) :=
    funext fun p => UTResult.isErr_eq_not_isOk p.1
  rw [h]
  exact List.filter_append_perm _ _

theorem successfulUploadsOf_sublist {β : Type} (results : List UTResult) (xs : List β) :
    (successfulUploadsOf results xs).Sublist (results.zip xs) :=
  List.filter_sublist _

theorem failedUploadsOf_sublist {β : Type} (results : List UTResult) (xs : List β) :
    (failedUploadsOf results xs).Sublist (results.zip xs) :=
  List.filter_sublist _

theorem failedUploadsOf_eq_nil {β : Type} (results : List UTResult) (xs : List β)
    (h : ∀ r ∈ results, r.isOk = true) : failedUploadsOf results xs = [] := by
  unfold failedUploadsOf
  rw [List.filter_eq_nil_iff]
  rintro ⟨r, b⟩ hp
  have hr := (List.of_mem_zip hp).1
  simp [UTResult.isErr_eq_not_isOk, h r hr]

theorem successfulUploadsOf_eq_self {β : Type} (results : List UTResult) (xs : List β)
    (h : ∀ r ∈ results, r.isOk = true) :
    successfulUploadsOf results xs = results.zip xs := by
  unfold successfulUploadsOf
  rw [List.filter_eq_self]
  rintro ⟨r, b⟩ hp
  exact h r (List.of_mem_zip hp).1

theorem strContains_refl (t : String) : strContains t t :=
  ⟨[], [], by simp⟩

theorem strContains_appendL (u t s : String) (h : strContains t s) :
    strContains (u ++ t) s := by
  unfold strContains at h ⊢
  rcases h with ⟨a, b, hab⟩
  exact ⟨u.data ++ a, b, by rw [String.data_append, ← hab]; simp⟩

theorem strContains_appendR (t u s : String) (h : strContains t s) :
    strContains (t ++ u) s := by
  unfold strContains at h ⊢
  rcases h with ⟨a, b, hab⟩
  exact ⟨a, b ++ u.data, by rw [String.data_append, ← hab]; simp⟩

theorem joinSep_contains (sep : String) {x : String} :
    ∀ {l : List String}, x ∈ l → strContains (joinSep sep l) x := by
  intro l
  induction l with
  | nil => intro h; cases h
  | cons a m ih =>
    intro hx
    cases m with
    | nil =>
      rcases List.mem_singleton.mp hx with rfl
      exact strContains_refl x
    | cons b m2 =>
      simp only [joinSep]
      rcases List.mem_cons.mp hx with rfl | hx2
      · exact strContains_appendR _ _ _ (strContains_appendR _ _ _ (strContains_refl x))
      · exact strContains_appendL _ _ _ (ih hx2)

/-! ### Concrete fixtures -/

/-- A file whose path exists under `fsOne`. -/
def goodFile : FileInput := ⟨"/tmp/a", "a.txt", "text/plain"⟩

/-- A file whose path does not exist under `fsOne`. -/
def missingFile : FileInput := ⟨"/tmp/missing", "m.txt", "text/plain"⟩

/-- Filesystem with exactly one readable path. -/
def fsOne : FS := fun p => if p = "/tmp/a" then .ok "bytesA" else .error "ENOENT"

/-- Upload service that accepts every file of the batch. -/
def svcAllOk : SvcFiles := fun ms => .ok (ms.map fun _ => .ok "d1")

/-- URL upload service that accepts every URL of the batch. -/
def svcUrlsOk : SvcUrls := fun us => .ok (us.map fun _ => .ok "d1")

/-! ### C5 -/

/-- C5 counterexample: upload-files-from-urls with the empty URL list does not
reject the input; it passes the empty batch to the upload service (exactly one
service call, with argument `[]`). -/
theorem c5_counterexample : (uploadFilesFromUrlsHandler svcUrlsOk []).svcCalls = [[]] := by
  decide

/-- C5 (amended): upload-files rejects the empty batch before any service call
(the service is never contacted), but upload-files-from-urls forwards the empty
batch to the upload service. -/
theorem c5_amended_empty_input :
    (∀ (fs : FS) (svc : SvcFiles), (uploadFilesHandler fs svc []).svcCalls = []) ∧
    (∀ svc : SvcUrls, (uploadFilesFromUrlsHandler svc []).svcCalls = [[]]) := by
  constructor
  · intro fs svc
    rfl
  · intro svc
    unfold uploadFilesFromUrlsHandler
    split
    · rfl
    · split
      · rfl
      · rfl

/-! ### C7 -/

/-- C7: for the empty files array, upload-files returns the well-formed error
envelope built from the "No files could be read to be uploaded" message, with no
service call; the handler is a total function, so no fault escapes. -/
theorem c7_empty_batch_well_formed (fs : FS) (svc : SvcFiles) :
    uploadFilesHandler fs svc [] =
      ⟨⟨"Files upload failed: No files could be read to be uploaded", true⟩,
        [], [], [], []⟩ := rfl

/-! ### C9 -/

/-- C9: a call of upload-files-from-urls whose input holds at least one URL the
URL test of the schema rejects is refused at schema validation; no handler run (and
hence no service call) happens, whatever the service would do. -/
theorem c9_invalid_url_rejected (validUrl : String → Bool) (svc : SvcUrls)
    (urls : List String) (u : String) (hu : u ∈ urls) (hv : validUrl u = false) :
    toolCallUrls validUrl svc urls = Except.error "ValidationError" := by
  unfold toolCallUrls
  have hall : urls.all validUrl = false := by
    by_cases h : urls.all validUrl = true
    · have := List.all_eq_true.mp h u hu
      rw [hv] at this
      cases this
    · exact Bool.eq_false_iff.mpr h
  simp [hall]

/-- C9 witness at a concrete invalid URL. -/
theorem c9_witness :
    ("bad" ∈ ["http", "bad"] ∧ (fun s => s != "bad") "bad" = false) ∧
    toolCallUrls (fun s => s != "bad") svcUrlsOk ["http", "bad"] =
      Except.error "ValidationError" :=
  ⟨by decide,
    c9_invalid_url_rejected (fun s => s != "bad") svcUrlsOk ["http", "bad"] "bad"
      (by decide) (by decide)⟩

/-! ### C10 -/

/-- C10: startup fails exactly when the credential token is absent or empty;
for every non-empty token, initialization builds the same server value (name,
version and registered tool handlers), so no tool handler depends on, or
re-validates, the token. -/
theorem c10_token_validation :
    (∀ env : Option String,
      exOk (mainInit env) = true ↔ ∃ t, env = some t ∧ t ≠ "") ∧
    (∀ t : String, t ≠ "" →
      createMCPUploadThing t =
        Except.ok ⟨"mcp-uploadthing", "0.0.2",
          uploadFilesHandler, uploadFilesFromUrlsHandler⟩) := by
  constructor
  · intro env
    cases env with
    | none => simp [mainInit, exOk]
    | some t =>
      by_cases ht : t = ""
      · subst ht
        simp [mainInit, exOk]
      · simp [mainInit, createMCPUploadThing, ht, exOk]
  · intro t ht
    unfold createMCPUploadThing
    rw [if_neg ht]

/-- C10 witness at a concrete non-empty token (and the absent-token case). -/
theorem c10_witness :
    createMCPUploadThing "tok" =
      Except.ok ⟨"mcp-uploadthing", "0.0.2",
        uploadFilesHandler, uploadFilesFromUrlsHandler⟩ :=
  c10_token_validation.2 "tok" (by decide)

/-! ### C1 -/

theorem failedFilesOf_append (fs : FS) (l1 l2 : List FileInput) :
    failedFilesOf fs (l1 ++ l2) = failedFilesOf fs l1 ++ failedFilesOf fs l2 := by
  unfold failedFilesOf settledOf
  rw [List.map_append, List.filter_append]

theorem failedFilesOf_nil_of_ok (fs : FS) (l : List FileInput)
    (h : ∀ f ∈ l, exOk (fs f.filePath) = true) : failedFilesOf fs l = [] :=
  (failedFilesOf_eq_nil_iff fs l).mpr h

theorem failedFilesOf_cons_err (fs : FS) (a : FileInput) (l : List FileInput)
    (e : String) (h : fs a.filePath = .error e) :
    failedFilesOf fs (a :: l) = (a, Except.error e) :: failedFilesOf fs l := by
  have hmat : materialize fs a = Except.error e := by
    unfold materialize
    rw [h]
  unfold failedFilesOf settledOf
  rw [List.map_cons, List.filter_cons]
  simp [hmat, exOk]

/-- C1 counterexample: a batch `[goodFile, missingFile]` in which exactly one
path does not exist and the service would accept every upload; contrary to the
claim, the response carries an empty success list and the upload service is
never called, so the other file of the batch is not uploaded. -/
theorem c1_counterexample :
    (uploadFilesHandler fsOne svcAllOk [goodFile, missingFile]).resp.isError = true ∧
    (uploadFilesHandler fsOne svcAllOk [goodFile, missingFile]).successes = [] ∧
    (uploadFilesHandler fsOne svcAllOk [goodFile, missingFile]).svcCalls = [] := by
  decide

/-- C1 (amended): for every batch in which the path of exactly one file fails to
read (all other paths read fine), upload-files responds with isError=true, its
failure list holds exactly that file, identified in the text by its path with
the read error, the success list is empty, and no file is uploaded (the upload
service is never invoked). -/
theorem c1_single_read_failure (fs : FS) (svc : SvcFiles)
    (pre post : List FileInput) (bad : FileInput) (e : String)
    (hpre : ∀ f ∈ pre, exOk (fs f.filePath) = true)
    (hpost : ∀ f ∈ post, exOk (fs f.filePath) = true)
    (hbad : fs bad.filePath = .error e) :
    (uploadFilesHandler fs svc (pre ++ bad :: post)).resp.isError = true ∧
    (uploadFilesHandler fs svc (pre ++ bad :: post)).failures = [bad] ∧
    (uploadFilesHandler fs svc (pre ++ bad :: post)).resp.text =
      "Files upload failed: " ++ readFailMsg [(bad.filePath, e)] ∧
    (uploadFilesHandler fs svc (pre ++ bad :: post)).successes = [] ∧
    (uploadFilesHandler fs svc (pre ++ bad :: post)).svcCalls = [] := by
  have hfail : failedFilesOf fs (pre ++ bad :: post) = [(bad, Except.error e)] := by
    rw [failedFilesOf_append, failedFilesOf_nil_of_ok fs pre hpre,
      failedFilesOf_cons_err fs bad post e hbad, failedFilesOf_nil_of_ok fs post hpost]
    rfl
  have hD : readFailD fs (pre ++ bad :: post) = [(bad.filePath, e)] := by
    unfold readFailD
    rw [hfail]
    rfl
  refine ⟨?_, ?_, ?_, ?_, ?_⟩ <;>
    simp [uploadFilesHandler, hfail, hD]

/-- C1 witness: the amended statement instantiated at the concrete batch
`[goodFile, missingFile]`. -/
theorem c1_witness :
    (uploadFilesHandler fsOne svcAllOk ([goodFile] ++ missingFile :: [])).resp.isError
        = true ∧
    (uploadFilesHandler fsOne svcAllOk ([goodFile] ++ missingFile :: [])).failures
        = [missingFile] ∧
    (uploadFilesHandler fsOne svcAllOk ([goodFile] ++ missingFile :: [])).resp.text
        = "Files upload failed: " ++ readFailMsg [(missingFile.filePath, "ENOENT")] ∧
    (uploadFilesHandler fsOne svcAllOk ([goodFile] ++ missingFile :: [])).successes
        = [] ∧
    (uploadFilesHandler fsOne svcAllOk ([goodFile] ++ missingFile :: [])).svcCalls
        = [] :=
  c1_single_read_failure fsOne svcAllOk [goodFile] [] missingFile "ENOENT"
    (by decide) (by decide) rfl

/-! ### C6 -/

/-- C6: if at least one file read fails, the upload service is never invoked —
no file of the batch is uploaded — and the error response is built solely from
the failed reads: the failure list is exactly the inputs whose read failed (in
order), every rendered identifier of the text is the path of an input whose
read failed, and the success list is empty. -/
theorem c6_read_failure_short_circuit (fs : FS) (svc : SvcFiles)
    (inputs : List FileInput) (g : FileInput)
    (hg : g ∈ inputs) (hgf : exOk (fs g.filePath) = false) :
    (uploadFilesHandler fs svc inputs).svcCalls = [] ∧
    (uploadFilesHandler fs svc inputs).resp.isError = true ∧
    (uploadFilesHandler fs svc inputs).resp.text =
      "Files upload failed: " ++ readFailMsg (readFailD fs inputs) ∧
    (uploadFilesHandler fs svc inputs).failures =
      (failedFilesOf fs inputs).map Prod.fst ∧
    (uploadFilesHandler fs svc inputs).successes = [] ∧
    (∀ x ∈ readFailD fs inputs, ∃ f ∈ inputs,
      x.1 = f.filePath ∧ exOk (fs f.filePath) = false) := by
  have hne : failedFilesOf fs inputs ≠ [] := by
    intro h
    have := (failedFilesOf_eq_nil_iff fs inputs).mp h g hg
    rw [hgf] at this
    cases this
  have hpos : (failedFilesOf fs inputs).length > 0 := List.length_pos.mpr hne
  have hrun : uploadFilesHandler fs svc inputs =
      ⟨⟨"Files upload failed: " ++ readFailMsg (readFailD fs inputs), true⟩,
        [], (failedFilesOf fs inputs).map Prod.fst, readFailD fs inputs, []⟩ := by
    unfold uploadFilesHandler
    rw [if_pos hpos]
  refine ⟨by rw [hrun], by rw [hrun], by rw [hrun], by rw [hrun], by rw [hrun], ?_⟩
  intro x hx
  unfold readFailD failedFilesOf settledOf at hx
  rcases List.mem_map.mp hx with ⟨p, hp, rfl⟩
  have hp2 := List.mem_filter.mp hp
  rcases List.mem_map.mp hp2.1 with ⟨f, hf, rfl⟩
  refine ⟨f, hf, rfl, ?_⟩
  have hb := hp2.2
  simpa [exOk_materialize] using hb

/-- C6 witness at the concrete batch `[goodFile, missingFile]`. -/
theorem c6_witness :
    (uploadFilesHandler fsOne svcAllOk [goodFile, missingFile]).svcCalls = [] ∧
    (uploadFilesHandler fsOne svcAllOk [goodFile, missingFile]).resp.isError = true ∧
    (uploadFilesHandler fsOne svcAllOk [goodFile, missingFile]).resp.text =
      "Files upload failed: " ++ readFailMsg (readFailD fsOne [goodFile, missingFile]) ∧
    (uploadFilesHandler fsOne svcAllOk [goodFile, missingFile]).failures =
      (failedFilesOf fsOne [goodFile, missingFile]).map Prod.fst ∧
    (uploadFilesHandler fsOne svcAllOk [goodFile, missingFile]).successes = [] ∧
    (∀ x ∈ readFailD fsOne [goodFile, missingFile], ∃ f ∈ [goodFile, missingFile],
      x.1 = f.filePath ∧ exOk (fsOne f.filePath) = false) :=
  c6_read_failure_short_circuit fsOne svcAllOk [goodFile, missingFile] missingFile
    (by decide) (by decide)

/-! ### C3 -/

theorem zip_map_snd_proj {α β γ : Type} (g : β → γ) (rs : List α) (xs : List β)
    (h : xs.length ≤ rs.length) :
    (rs.zip xs).map (fun p => g p.2) = xs.map g := by
  have h1 : (rs.zip xs).map (fun p => g p.2) = ((rs.zip xs).map Prod.snd).map g := by
    rw [List.map_map]
    rfl
  rw [h1, List.map_snd_zip rs xs h]

theorem succesfulFilesOf_map_snd (fs : FS) (inputs : List FileInput)
    (h : ∀ f ∈ inputs, exOk (fs f.filePath) = true) :
    (succesfulFilesOf fs inputs).map Prod.snd = inputs.map (mfileOf fs) := by
  rw [succesfulFilesOf_all_ok fs inputs h, List.map_map]
  rfl

/-- C3: for a non-empty batch whose paths all read successfully and whose
uploads the service all accepts, upload-files answers with isError=false and a
success list that is exactly the input list (equal length, input order). -/
theorem c3_all_ok (fs : FS) (svc : SvcFiles) (inputs : List FileInput)
    (results : List UTResult)
    (hne : inputs ≠ [])
    (hread : ∀ f ∈ inputs, exOk (fs f.filePath) = true)
    (hsvc : svc (inputs.map (mfileOf fs)) = Except.ok results)
    (hlen : results.length = inputs.length)
    (hok : ∀ r ∈ results, r.isOk = true) :
    (uploadFilesHandler fs svc inputs).resp.isError = false ∧
    (uploadFilesHandler fs svc inputs).successes = inputs := by
  have hsf : succesfulFilesOf fs inputs = inputs.map fun f => (f, mfileOf fs f) :=
    succesfulFilesOf_all_ok fs inputs hread
  have hffnil : failedFilesOf fs inputs = [] := failedFilesOf_nil_of_ok fs inputs hread
  have hcond1 : ¬ ((failedFilesOf fs inputs).length > 0) := by
    rw [hffnil]
    simp
  have hlen1 : (succesfulFilesOf fs inputs).length = inputs.length := by
    rw [hsf, List.length_map]
  have hcond2 : ¬ ((succesfulFilesOf fs inputs).length = 0) := by
    rw [hlen1]
    simpa using hne
  have hsvc2 : svc ((succesfulFilesOf fs inputs).map Prod.snd) = Except.ok results := by
    rw [succesfulFilesOf_map_snd fs inputs hread]
    exact hsvc
  have hfu : failedUploadsOf results (succesfulFilesOf fs inputs) = [] :=
    failedUploadsOf_eq_nil _ _ hok
  have hcond3 : ¬ ((failedUploadsOf results (succesfulFilesOf fs inputs)).length > 0) := by
    rw [hfu]
    simp
  have hsucc : (successfulUploadsOf results (succesfulFilesOf fs inputs)).map
      (fun p => p.2.1) = inputs := by
    rw [successfulUploadsOf_eq_self _ _ hok,
      zip_map_snd_proj Prod.fst results _ (by rw [hlen1, hlen])]
    rw [hsf, List.map_map]
    have hid : (Prod.fst ∘ fun f : FileInput => (f, mfileOf fs f)) = id := rfl
    rw [hid, List.map_id]
  have hrun :
      uploadFilesHandler fs svc inputs =
        ⟨⟨uploadOkMsg (succDOf results (succesfulFilesOf fs inputs)), false⟩,
          (successfulUploadsOf results (succesfulFilesOf fs inputs)).map (fun p => p.2.1),
          [], [], [(succesfulFilesOf fs inputs).map Prod.snd]⟩ := by
    unfold uploadFilesHandler
    rw [if_neg hcond1, if_neg hcond2, hsvc2]
    simp only [if_neg hcond3]
  rw [hrun]
  exact ⟨rfl, hsucc⟩

/-- C3 witness at the concrete batch `[goodFile]`. -/
theorem c3_witness :
    (uploadFilesHandler fsOne svcAllOk [goodFile]).resp.isError = false ∧
    (uploadFilesHandler fsOne svcAllOk [goodFile]).successes = [goodFile] :=
  c3_all_ok fsOne svcAllOk [goodFile] [UTResult.ok "d1"]
    (by decide) (by decide) rfl (by decide) (by decide)

/-! ### C2 -/

/-- C2 counterexample: in the upload-files batch `[goodFile, missingFile]`, the
readable input `goodFile` appears in neither the success list nor the failure
list of the response, so the two result lists do not partition the input set. -/
theorem c2_counterexample :
    goodFile ∉ (uploadFilesHandler fsOne svcAllOk [goodFile, missingFile]).successes ∧
    goodFile ∉ (uploadFilesHandler fsOne svcAllOk [goodFile, missingFile]).failures := by
  decide

/-- C2 (amended): when the service yields one per-item result per input, the
success and failure lists partition the input set — their concatenation is a
permutation of the input list and each list is an order-preserving sublist of
the input.  This holds for upload-files-from-urls on every batch, and for
upload-files on every batch whose reads all succeed; when some read of an
upload-files batch fails, only the failed reads are reported — the failure
list is exactly the inputs whose read failed, in input order, the success list
is empty, and the successfully read inputs appear in neither list. -/
theorem c2_partition :
    (∀ (svc : SvcUrls) (urls : List String) (results : List UTResult),
      svc urls = Except.ok results → results.length = urls.length →
      ((uploadFilesFromUrlsHandler svc urls).successes ++
          (uploadFilesFromUrlsHandler svc urls).failures).Perm urls ∧
      ((uploadFilesFromUrlsHandler svc urls).successes).Sublist urls ∧
      ((uploadFilesFromUrlsHandler svc urls).failures).Sublist urls) ∧
    (∀ (fs : FS) (svc : SvcFiles) (inputs : List FileInput) (results : List UTResult),
      (∀ f ∈ inputs, exOk (fs f.filePath) = true) →
      svc (inputs.map (mfileOf fs)) = Except.ok results →
      results.length = inputs.length →
      ((uploadFilesHandler fs svc inputs).successes ++
          (uploadFilesHandler fs svc inputs).failures).Perm inputs ∧
      ((uploadFilesHandler fs svc inputs).successes).Sublist inputs ∧
      ((uploadFilesHandler fs svc inputs).failures).Sublist inputs) ∧
    (∀ (fs : FS) (svc : SvcFiles) (inputs : List FileInput),
      failedFilesOf fs inputs ≠ [] →
      (uploadFilesHandler fs svc inputs).successes = [] ∧
      (uploadFilesHandler fs svc inputs).failures =
        (failedFilesOf fs inputs).map Prod.fst) := by
  refine ⟨?_, ?_, ?_⟩
  · intro svc urls results hsvc hlen
    have hzl : urls.length ≤ results.length := le_of_eq hlen.symm
    have hperm : ((successfulUploadsOf results urls).map Prod.snd ++
        (failedUploadsOf results urls).map Prod.snd).Perm urls := by
      have h2 := List.Perm.map Prod.snd (uploads_partition_perm results urls)
      rwa [List.map_append, List.map_snd_zip results urls hzl] at h2
    have hs1 : ((successfulUploadsOf results urls).map Prod.snd).Sublist urls := by
      have h2 := List.Sublist.map Prod.snd (successfulUploadsOf_sublist results urls)
      rwa [List.map_snd_zip results urls hzl] at h2
    have hs2 : ((failedUploadsOf results urls).map Prod.snd).Sublist urls := by
      have h2 := List.Sublist.map Prod.snd (failedUploadsOf_sublist results urls)
      rwa [List.map_snd_zip results urls hzl] at h2
    by_cases hcond : (failedUploadsOf results urls).length > 0
    · simp only [uploadFilesFromUrlsHandler, hsvc, if_pos hcond]
      exact ⟨hperm, hs1, hs2⟩
    · have hfu : failedUploadsOf results urls = [] := by
        by_contra hne
        exact hcond (List.length_pos.mpr hne)
      simp only [uploadFilesFromUrlsHandler, hsvc, if_neg hcond]
      refine ⟨?_, hs1, List.nil_sublist urls⟩
      rw [hfu] at hperm
      simpa using hperm
  · intro fs svc inputs results hread hsvc hlen
    by_cases hnil : inputs = []
    · subst hnil
      exact ⟨List.Perm.refl _, List.nil_sublist _, List.nil_sublist _⟩
    · have hsf : succesfulFilesOf fs inputs = inputs.map fun f => (f, mfileOf fs f) :=
        succesfulFilesOf_all_ok fs inputs hread
      have hffnil : failedFilesOf fs inputs = [] :=
        failedFilesOf_nil_of_ok fs inputs hread
      have hcond1 : ¬ ((failedFilesOf fs inputs).length > 0) := by
        rw [hffnil]
        simp
      have hlen1 : (succesfulFilesOf fs inputs).length = inputs.length := by
        rw [hsf, List.length_map]
      have hcond2 : ¬ ((succesfulFilesOf fs inputs).length = 0) := by
        rw [hlen1]
        simpa using hnil
      have hsvc2 : svc ((succesfulFilesOf fs inputs).map Prod.snd) =
          Except.ok results := by
        rw [succesfulFilesOf_map_snd fs inputs hread]
        exact hsvc
      have hzl : (succesfulFilesOf fs inputs).length ≤ results.length := by
        rw [hlen1, hlen]
      have hmapzip : ((results.zip (succesfulFilesOf fs inputs)).map
          fun p => p.2.1) = inputs := by
        rw [zip_map_snd_proj Prod.fst results _ hzl, hsf, List.map_map]
        have hid : (Prod.fst ∘ fun f : FileInput => (f, mfileOf fs f)) = id := rfl
        rw [hid, List.map_id]
      have hperm : (((successfulUploadsOf results (succesfulFilesOf fs inputs)).map
            fun p => p.2.1) ++
          ((failedUploadsOf results (succesfulFilesOf fs inputs)).map
            fun p => p.2.1)).Perm inputs := by
        have h2 := List.Perm.map (fun p : UTResult × (FileInput × MFile) => p.2.1)
          (uploads_partition_perm results (succesfulFilesOf fs inputs))
        rwa [List.map_append, hmapzip] at h2
      have hs1 : ((successfulUploadsOf results (succesfulFilesOf fs inputs)).map
          fun p => p.2.1).Sublist inputs := by
        have h2 := List.Sublist.map (fun p : UTResult × (FileInput × MFile) => p.2.1)
          (successfulUploadsOf_sublist results (succesfulFilesOf fs inputs))
        rwa [hmapzip] at h2
      have hs2 : ((failedUploadsOf results (succesfulFilesOf fs inputs)).map
          fun p => p.2.1).Sublist inputs := by
        have h2 := List.Sublist.map (fun p : UTResult × (FileInput × MFile) => p.2.1)
          (failedUploadsOf_sublist results (succesfulFilesOf fs inputs))
        rwa [hmapzip] at h2
      by_cases hcond3 :
          (failedUploadsOf results (succesfulFilesOf fs inputs)).length > 0
      · simp only [uploadFilesHandler, if_neg hcond1, if_neg hcond2, hsvc2,
          if_pos hcond3]
        exact ⟨hperm, hs1, hs2⟩
      · have hfu : failedUploadsOf results (succesfulFilesOf fs inputs) = [] := by
          by_contra hne2
          exact hcond3 (List.length_pos.mpr hne2)
        simp only [uploadFilesHandler, if_neg hcond1, if_neg hcond2, hsvc2,
          if_neg hcond3]
        refine ⟨?_, hs1, List.nil_sublist inputs⟩
        rw [hfu] at hperm
        simpa using hperm
  · intro fs svc inputs hne
    have hpos : (failedFilesOf fs inputs).length > 0 := List.length_pos.mpr hne
    have hrun : uploadFilesHandler fs svc inputs =
        ⟨⟨"Files upload failed: " ++ readFailMsg (readFailD fs inputs), true⟩,
          [], (failedFilesOf fs inputs).map Prod.fst, readFailD fs inputs, []⟩ := by
      unfold uploadFilesHandler
      rw [if_pos hpos]
    rw [hrun]
    exact ⟨rfl, rfl⟩

/-- URL upload service that rejects exactly the URL "u2". -/
def svcUrlsMix : SvcUrls := fun us =>
  .ok (us.map fun u => if u = "u2" then .err "e1" else .ok "d1")

/-- C2 witness: the url-tool partition instantiated at a concrete batch with one
accepted and one rejected URL. -/
theorem c2_witness :
    ((uploadFilesFromUrlsHandler svcUrlsMix ["u1", "u2"]).successes ++
        (uploadFilesFromUrlsHandler svcUrlsMix ["u1", "u2"]).failures).Perm
      ["u1", "u2"] ∧
    ((uploadFilesFromUrlsHandler svcUrlsMix ["u1", "u2"]).successes).Sublist
      ["u1", "u2"] ∧
    ((uploadFilesFromUrlsHandler svcUrlsMix ["u1", "u2"]).failures).Sublist
      ["u1", "u2"] :=
  c2_partition.1 svcUrlsMix ["u1", "u2"] [UTResult.ok "d1", UTResult.err "e1"]
    rfl (by decide)

/-! ### C4 -/

theorem map_ne_nil {α β : Type} (f : α → β) (l : List α) (h : l ≠ []) :
    l.map f ≠ [] := by
  cases l with
  | nil => exact absurd rfl h
  | cons a t => simp

/-- C4 counterexample: upload-files on the empty batch answers isError=true even
though no item of the call failed (the failure list is empty), refuting the
claimed equivalence. -/
theorem c4_counterexample :
    (uploadFilesHandler fsOne svcAllOk []).resp.isError = true ∧
    (uploadFilesHandler fsOne svcAllOk []).failures = [] := by
  decide

/-- C4 (amended): isError tracks per-item failure whenever per-item results
exist — for a non-empty upload-files batch under a non-throwing service and for
any upload-files-from-urls batch whose service call returns results, isError is
true iff the failure list is non-empty; for upload-file, isError=false iff the
read succeeded and the service returned a success result.  Exception forced by
the counterexample: upload-files on an empty batch answers isError=true with an
empty failure list. -/
theorem c4_isError_iff :
    (∀ (fs : FS) (svc : SvcFiles) (inputs : List FileInput),
      inputs ≠ [] → (∀ ms, exOk (svc ms) = true) →
      ((uploadFilesHandler fs svc inputs).resp.isError = true ↔
        (uploadFilesHandler fs svc inputs).failures ≠ [])) ∧
    (∀ (svc : SvcUrls) (urls : List String) (results : List UTResult),
      svc urls = Except.ok results →
      ((uploadFilesFromUrlsHandler svc urls).resp.isError = true ↔
        (uploadFilesFromUrlsHandler svc urls).failures ≠ [])) ∧
    (∀ (fs : FS) (svc1 : MFile → Except String UTResult) (p n t : String),
      (uploadFileHandler fs svc1 p n t).isError = false ↔
        ∃ b d, fs p = Except.ok b ∧ svc1 ⟨n, t, b⟩ = Except.ok (UTResult.ok d)) ∧
    (∀ (fs : FS) (svc : SvcFiles),
      (uploadFilesHandler fs svc []).resp.isError = true ∧
      (uploadFilesHandler fs svc []).failures = []) := by
  refine ⟨?_, ?_, ?_, ?_⟩
  · intro fs svc inputs hne hsvc
    by_cases hff : failedFilesOf fs inputs = []
    · have hread := (failedFilesOf_eq_nil_iff fs inputs).mp hff
      have hsf := succesfulFilesOf_all_ok fs inputs hread
      have hcond1 : ¬ ((failedFilesOf fs inputs).length > 0) := by
        rw [hff]
        simp
      have hlen1 : (succesfulFilesOf fs inputs).length = inputs.length := by
        rw [hsf, List.length_map]
      have hcond2 : ¬ ((succesfulFilesOf fs inputs).length = 0) := by
        rw [hlen1]
        simpa using hne
      cases hsvc3 : svc ((succesfulFilesOf fs inputs).map Prod.snd) with
      | error e =>
        have hb := hsvc ((succesfulFilesOf fs inputs).map Prod.snd)
        rw [hsvc3] at hb
        simp [exOk] at hb
      | ok results =>
        by_cases hcond3 :
            (failedUploadsOf results (succesfulFilesOf fs inputs)).length > 0
        · simp only [uploadFilesHandler, if_neg hcond1, if_neg hcond2, hsvc3,
            if_pos hcond3]
          constructor
          · intro _
            exact map_ne_nil _ _ (List.length_pos.mp hcond3)
          · intro _
            trivial
        · simp only [uploadFilesHandler, if_neg hcond1, if_neg hcond2, hsvc3,
            if_neg hcond3]
          constructor
          · intro h
            exact Bool.noConfusion h
          · intro h
            exact absurd rfl h
    · have hpos : (failedFilesOf fs inputs).length > 0 := List.length_pos.mpr hff
      have hrun : uploadFilesHandler fs svc inputs =
          ⟨⟨"Files upload failed: " ++ readFailMsg (readFailD fs inputs), true⟩,
            [], (failedFilesOf fs inputs).map Prod.fst, readFailD fs inputs, []⟩ := by
        unfold uploadFilesHandler
        rw [if_pos hpos]
      rw [hrun]
      constructor
      · intro _
        exact map_ne_nil Prod.fst _ hff
      · intro _
        rfl
  · intro svc urls results hsvc
    by_cases hcond : (failedUploadsOf results urls).length > 0
    · simp only [uploadFilesFromUrlsHandler, hsvc, if_pos hcond]
      constructor
      · intro _
        exact map_ne_nil Prod.snd _ (List.length_pos.mp hcond)
      · intro _
        trivial
    · simp only [uploadFilesFromUrlsHandler, hsvc, if_neg hcond]
      constructor
      · intro h
        exact Bool.noConfusion h
      · intro h
        exact absurd rfl h
  · intro fs svc1 p n t
    unfold uploadFileHandler
    cases hfs : fs p with
    | error e => simp
    | ok b =>
      cases hs1 : svc1 ⟨n, t, b⟩ with
      | error e2 => simp [hs1]
      | ok r =>
        cases r with
        | ok d => simp [hs1]
        | err er => simp [hs1]
  · intro fs svc
    exact ⟨rfl, rfl⟩

/-- C4 witness: the upload-files equivalence instantiated at the concrete batch
`[goodFile]` with an always-accepting service. -/
theorem c4_witness :
    (uploadFilesHandler fsOne svcAllOk [goodFile]).resp.isError = true ↔
      (uploadFilesHandler fsOne svcAllOk [goodFile]).failures ≠ [] :=
  c4_isError_iff.1 fsOne svcAllOk [goodFile] (by decide) (fun ms => rfl)

/-! ### C8 -/

theorem renderPairs_contains {x : String × String} {l : List (String × String)}
    (hx : x ∈ l) : strContains (joinSep ", " (renderPairs l)) (x.1 ++ ": " ++ x.2) :=
  joinSep_contains ", " (List.mem_map.mpr ⟨x, hx, rfl⟩)

/-- C8: every per-item failure of a batch call is named in the response text —
for each entry of the failure-detail list (identifier and error detail of one
failed item: file path for read failures, file name for upload failures, URL
for URL uploads), the rendered `identifier: detail` string occurs in the text
of the response. -/
theorem c8_failures_named_in_text :
    (∀ (fs : FS) (svc : SvcFiles) (inputs : List FileInput) (x : String × String),
      x ∈ (uploadFilesHandler fs svc inputs).failD →
      strContains (uploadFilesHandler fs svc inputs).resp.text
        (x.1 ++ ": " ++ x.2)) ∧
    (∀ (svc : SvcUrls) (urls : List String) (x : String × String),
      x ∈ (uploadFilesFromUrlsHandler svc urls).failD →
      strContains (uploadFilesFromUrlsHandler svc urls).resp.text
        (x.1 ++ ": " ++ x.2)) := by
  constructor
  · intro fs svc inputs x
    by_cases hcond1 : (failedFilesOf fs inputs).length > 0
    · unfold uploadFilesHandler
      rw [if_pos hcond1]
      intro hx
      have hx2 : x ∈ readFailD fs inputs := hx
      show strContains ("Files upload failed: " ++
        ("Failed to read files given the following paths: " ++
          joinSep ", " (renderPairs (readFailD fs inputs)))) (x.1 ++ ": " ++ x.2)
      exact strContains_appendL _ _ _
        (strContains_appendL _ _ _ (renderPairs_contains hx2))
    · unfold uploadFilesHandler
      rw [if_neg hcond1]
      by_cases hcond2 : (succesfulFilesOf fs inputs).length = 0
      · rw [if_pos hcond2]
        intro hx
        exact absurd hx (List.not_mem_nil x)
      · rw [if_neg hcond2]
        cases hsvc3 : svc ((succesfulFilesOf fs inputs).map Prod.snd) with
        | error e =>
          intro hx
          exact absurd hx (List.not_mem_nil x)
        | ok results =>
          by_cases hcond3 :
              (failedUploadsOf results (succesfulFilesOf fs inputs)).length > 0
          · simp only [if_pos hcond3]
            intro hx
            have hx2 : x ∈ failDOf results (succesfulFilesOf fs inputs) := hx
            show strContains ("Files upload failed: " ++
              ((("Successfully uploaded files: " ++
                  joinSep ", " (renderPairs (succDOf results
                    (succesfulFilesOf fs inputs)))) ++
                "\n\nFailed to upload files: ") ++
                joinSep ", " (renderPairs (failDOf results
                  (succesfulFilesOf fs inputs))))) (x.1 ++ ": " ++ x.2)
            exact strContains_appendL _ _ _
              (strContains_appendL _ _ _ (renderPairs_contains hx2))
          · simp only [if_neg hcond3]
            intro hx
            exact absurd hx (List.not_mem_nil x)
  · intro svc urls x
    unfold uploadFilesFromUrlsHandler
    cases hsvc : svc urls with
    | error e =>
      intro hx
      exact absurd hx (List.not_mem_nil x)
    | ok results =>
      by_cases hcond : (failedUploadsOf results urls).length > 0
      · simp only [if_pos hcond]
        intro hx
        have hx2 : x ∈ urlFailD results urls := hx
        show strContains ("Files by URL upload failed: " ++
          ((("Successfully uploaded files by URL: " ++
              joinSep ", " (renderPairs (urlSuccD results urls))) ++
            "\n\nFailed to upload files by URL: ") ++
            joinSep ", " (renderPairs (urlFailD results urls)))) (x.1 ++ ": " ++ x.2)
        exact strContains_appendL _ _ _
          (strContains_appendL _ _ _ (renderPairs_contains hx2))
      · simp only [if_neg hcond]
        intro hx
        exact absurd hx (List.not_mem_nil x)

/-- C8 witness: the failed item of the concrete mixed-outcome URL batch is named
with its error in the response text. -/
theorem c8_witness :
    ("u2", "e1") ∈ (uploadFilesFromUrlsHandler svcUrlsMix ["u1", "u2"]).failD ∧
    strContains (uploadFilesFromUrlsHandler svcUrlsMix ["u1", "u2"]).resp.text
      ("u2" ++ ": " ++ "e1") :=
  ⟨by decide,
    c8_failures_named_in_text.2 svcUrlsMix ["u1", "u2"] ("u2", "e1") (by decide)⟩
